import Mathlib

/-!
# Verification of the SPY options HTTP read API

Shallow embedding of `src/main.py`: a FastAPI service with four GET routes
backed by a PostgreSQL database.  The database tables are modelled as lists
of rows; the fixed SQL statements are modelled by their SQL semantics:

* `SELECT * FROM t ORDER BY k DESC LIMIT n` fixes the returned list up to
  the order of rows with equal keys (`ordLimitRel`); a stable insertion
  sort (`sortDescBy`) gives the canonical deterministic evaluation.
* `(q1) UNION (q2)` fixes only the *set* of returned rows (duplicates
  removed); SQL leaves the output order of a `UNION` without an outer
  `ORDER BY` unspecified, which `topRel` reflects.

Connection handling (`asyncpg.create_pool`, `pool.acquire`, `conn.fetch`,
the implicit release of `async with`) is modelled by an explicit world
state and an event trace, with injected faults standing for the failure of
each database operation.
-/

namespace SpyApi

/-- One row of the `spy_ohlc` table.  The service orders this table by
`recorded_at`; every other column is opaque to it (`SELECT *`), modelled
by a single `payload` field. -/
structure OhlcRow where
  recorded_at : Int
  payload : Int
deriving DecidableEq, Repr

/-- One row of the `spy_option_data` table.  The service uses
`recorded_at`, `call_volume` and `put_volume` for ordering; the remaining
columns are opaque, modelled by `payload`. -/
structure OptionRow where
  recorded_at : Int
  call_volume : Int
  put_volume : Int
  payload : Int
deriving DecidableEq, Repr

/-- The state of the external database: the two tables the service reads. -/
structure DBState where
  spy_ohlc : List OhlcRow
  spy_option_data : List OptionRow
deriving DecidableEq, Repr

/-! ## Descending sort by a key, and `ORDER BY … DESC LIMIT n` semantics -/

/-- Relation `descBy key a b`: row `b` may follow row `a` in a list ordered
descending by `key` (keys non-increasing). -/
def descBy (key : α → Int) (a b : α) : Prop := key b ≤ key a

instance (key : α → Int) : DecidableRel (descBy key) := fun a b =>
  inferInstanceAs (Decidable (key b ≤ key a))

/-- Insert a row into a list sorted descending by `key`, keeping it before
the first strictly smaller key (stable). -/
def insertDescBy (key : α → Int) (x : α) : List α → List α
  | [] => [x]
  | y :: ys => if key y ≤ key x then x :: y :: ys else y :: insertDescBy key x ys

/-- Stable insertion sort, descending by `key`: the canonical evaluation
of `ORDER BY key DESC`. -/
def sortDescBy (key : α → Int) : List α → List α
  | [] => []
  | x :: xs => insertDescBy key x (sortDescBy key xs)

/-- Relation `ordLimitRel key n table rows`: `rows` is a possible result of
`SELECT * FROM table ORDER BY key DESC LIMIT n`.  SQL fixes the result up
to the relative order of rows with equal keys, so a result is the first
`n` rows of some permutation of the table that is ordered descending by
`key`. -/
def ordLimitRel (key : α → Int) (n : Nat) (table rows : List α) : Prop :=
  ∃ s : List α, table.Perm s ∧ s.Pairwise (descBy key) ∧ rows = s.take n

theorem insertDescBy_perm (key : α → Int) (x : α) (l : List α) :
    (insertDescBy key x l).Perm (x :: l) := by
  induction l with
  | nil => simp [insertDescBy]
  | cons y ys ih =>
    by_cases h : key y ≤ key x
    · simp [insertDescBy, h]
    · simp only [insertDescBy, if_neg h]
      exact (ih.cons y).trans (List.Perm.swap x y ys)

theorem insertDescBy_pairwise (key : α → Int) (x : α) (l : List α)
    (hl : l.Pairwise (descBy key)) :
    (insertDescBy key x l).Pairwise (descBy key) := by
  induction l with
  | nil => simp [insertDescBy, List.Pairwise]
  | cons y ys ih =>
    rcases List.pairwise_cons.mp hl with ⟨hy, hys⟩
    by_cases h : key y ≤ key x
    · simp only [insertDescBy, if_pos h]
      refine List.pairwise_cons.mpr ⟨?_, hl⟩
      intro b hb
      rcases List.mem_cons.mp hb with rfl | hb
      · exact h
      · exact (hy b hb).trans h
    · simp only [insertDescBy, if_neg h]
      refine List.pairwise_cons.mpr ⟨?_, ih hys⟩
      intro b hb
      have hmem := (insertDescBy_perm key x ys).mem_iff.mp hb
      rcases List.mem_cons.mp hmem with rfl | hb'
      · exact le_of_lt (lt_of_not_le h)
      · exact hy b hb'

theorem sortDescBy_perm (key : α → Int) (l : List α) :
    l.Perm (sortDescBy key l) := by
  induction l with
  | nil => simp [sortDescBy]
  | cons x xs ih =>
    exact (ih.cons x).trans (insertDescBy_perm key x (sortDescBy key xs)).symm

theorem sortDescBy_pairwise (key : α → Int) (l : List α) :
    (sortDescBy key l).Pairwise (descBy key) := by
  induction l with
  | nil => simp [sortDescBy, List.Pairwise]
  | cons x xs ih => exact insertDescBy_pairwise key x _ ih

/-- The canonical evaluation is a valid `ORDER BY … DESC LIMIT n` result. -/
theorem ordLimitRel_canonical (key : α → Int) (n : Nat) (table : List α) :
    ordLimitRel key n table ((sortDescBy key table).take n) :=
  ⟨sortDescBy key table, sortDescBy_perm key table, sortDescBy_pairwise key table, rfl⟩

/-- Every valid `ORDER BY … DESC LIMIT n` result has at most `n` rows and
is ordered with non-increasing keys. -/
theorem ordLimitRel_length_pairwise (key : α → Int) (n : Nat)
    (table rows : List α) (h : ordLimitRel key n table rows) :
    rows.length ≤ n ∧ rows.Pairwise (descBy key) := by
  rcases h with ⟨s, _, hs, rfl⟩
  exact ⟨List.length_take_le n s, hs.sublist (List.take_sublist n s)⟩

/-- Uniqueness of sorted results: two lists that are permutations of each
other, both ordered with non-increasing keys, and whose keys are pairwise
distinct, are equal.  (This is why the `LIMIT 5` scenario with the ten
distinct `recorded_at` values has a unique result.) -/
theorem pairwise_desc_perm_eq (key : α → Int) :
    ∀ l₁ l₂ : List α, l₁.Perm l₂ → l₁.Pairwise (descBy key) →
      l₂.Pairwise (descBy key) → (l₁.map key).Nodup → l₁ = l₂ := by
  intro l₁
  induction l₁ with
  | nil => intro l₂ hp _ _ _; exact (hp.nil_eq).symm ▸ rfl
  | cons a t₁ ih =>
    intro l₂ hp h₁ h₂ hnd
    match l₂ with
    | [] => exact absurd hp.symm (by simp)
    | b :: t₂ =>
      rcases List.pairwise_cons.mp h₁ with ⟨ha, ht₁⟩
      rcases List.pairwise_cons.mp h₂ with ⟨hb, ht₂⟩
      have hab : a = b := by
        have hbmem : b ∈ a :: t₁ := hp.symm.subset (List.mem_cons_self b t₂)
        rcases List.mem_cons.mp hbmem with rfl | hbt₁
        · rfl
        · -- b sits in the tail of l₁, so key b ≤ key a; a sits in l₂.
          have hba : key b ≤ key a := ha b hbt₁
          have hamem : a ∈ b :: t₂ := hp.subset (List.mem_cons_self a t₁)
          rcases List.mem_cons.mp hamem with rfl | hat₂
          · rfl
          · have hab' : key a ≤ key b := hb a hat₂
            have hkey : key a = key b := le_antisymm hab' hba
            rcases List.nodup_cons.mp hnd with ⟨hka, _⟩
            exact absurd (hkey ▸ List.mem_map_of_mem key hbt₁) hka
      subst hab
      have hpt : t₁.Perm t₂ := hp.cons_inv
      have := ih t₂ hpt ht₁ ht₂ (List.nodup_cons.mp hnd).2
      rw [this]

/-! ## `UNION` semantics -/

/-- Remove duplicates keeping the first occurrence of each row, tracking
rows already `seen`. -/
def dedupFirstAux [DecidableEq α] (seen : List α) : List α → List α
  | [] => []
  | x :: xs =>
    if x ∈ seen then dedupFirstAux seen xs
    else x :: dedupFirstAux (x :: seen) xs

/-- Remove duplicate rows from a list, keeping first occurrences: the
canonical evaluation of the deduplication a SQL `UNION` performs. -/
def dedupFirst [DecidableEq α] (l : List α) : List α := dedupFirstAux [] l

theorem mem_dedupFirstAux [DecidableEq α] (seen : List α) (l : List α) (a : α) :
    a ∈ dedupFirstAux seen l ↔ a ∈ l ∧ a ∉ seen := by
  induction l generalizing seen with
  | nil => simp [dedupFirstAux]
  | cons x xs ih =>
    by_cases hx : x ∈ seen
    · simp only [dedupFirstAux, if_pos hx, ih, List.mem_cons]
      constructor
      · rintro ⟨h1, h2⟩; exact ⟨Or.inr h1, h2⟩
      · rintro ⟨h1 | h1, h2⟩
        · exact absurd (h1 ▸ hx) h2
        · exact ⟨h1, h2⟩
    · simp only [dedupFirstAux, if_neg hx, List.mem_cons, ih]
      constructor
      · rintro (rfl | ⟨h1, h2⟩)
        · exact ⟨Or.inl rfl, hx⟩
        · exact ⟨Or.inr h1, fun hs => h2 (Or.inr hs)⟩
      · rintro ⟨rfl | h1, h2⟩
        · exact Or.inl rfl
        · by_cases hax : a = x
          · exact Or.inl hax
          · exact Or.inr ⟨h1, fun hs => hs.elim hax h2⟩

theorem nodup_dedupFirstAux [DecidableEq α] (seen : List α) (l : List α) :
    (dedupFirstAux seen l).Nodup := by
  induction l generalizing seen with
  | nil => simp [dedupFirstAux]
  | cons x xs ih =>
    by_cases hx : x ∈ seen
    · simpa [dedupFirstAux, if_pos hx] using ih seen
    · simp only [dedupFirstAux, if_neg hx]
      refine List.nodup_cons.mpr ⟨?_, ih (x :: seen)⟩
      intro hmem
      exact ((mem_dedupFirstAux _ _ _).mp hmem).2 (List.mem_cons_self x seen)

theorem mem_dedupFirst [DecidableEq α] (l : List α) (a : α) :
    a ∈ dedupFirst l ↔ a ∈ l := by
  simp [dedupFirst, mem_dedupFirstAux]

theorem nodup_dedupFirst [DecidableEq α] (l : List α) :
    (dedupFirst l).Nodup := nodup_dedupFirstAux [] l

/-- A list without duplicate entries contained in another list is no longer
than it. -/
theorem nodup_subset_length_le [DecidableEq α] (l₁ l₂ : List α)
    (hnd : l₁.Nodup) (hsub : l₁ ⊆ l₂) : l₁.length ≤ l₂.length := by
  calc l₁.length = l₁.toFinset.card := (List.toFinset_card_of_nodup hnd).symm
    _ ≤ l₂.toFinset.card := Finset.card_le_card (fun a ha => by
        rw [List.mem_toFinset] at *; exact hsub ha)
    _ ≤ l₂.length := l₂.toFinset_card_le

/-- Relation `topRel table rows`: `rows` is a possible result of

```
(SELECT * FROM spy_option_data ORDER BY call_volume DESC LIMIT 3)
UNION
(SELECT * FROM spy_option_data ORDER BY put_volume DESC LIMIT 3);
```

A SQL `UNION` removes duplicate rows and — absent an outer `ORDER BY` —
returns them in an unspecified order, so a valid result is any
duplicate-free enumeration of the union of the two subquery results. -/
def topRel (table rows : List OptionRow) : Prop :=
  ∃ q1 q2 : List OptionRow,
    ordLimitRel (fun r => r.call_volume) 3 table q1 ∧
    ordLimitRel (fun r => r.put_volume) 3 table q2 ∧
    rows.Nodup ∧ ∀ r : OptionRow, r ∈ rows ↔ r ∈ q1 ∨ r ∈ q2

/-- The canonical evaluation of the `/spy/options/top` query: the top 3
rows by `call_volume` followed by the top 3 rows by `put_volume`, with
duplicate rows removed (first occurrence kept). -/
def topCanonical (table : List OptionRow) : List OptionRow :=
  dedupFirst ((sortDescBy (fun r => r.call_volume) table).take 3 ++
    (sortDescBy (fun r => r.put_volume) table).take 3)

theorem topRel_canonical (table : List OptionRow) :
    topRel table (topCanonical table) := by
  refine ⟨(sortDescBy (fun r => r.call_volume) table).take 3,
    (sortDescBy (fun r => r.put_volume) table).take 3,
    ordLimitRel_canonical _ 3 table, ordLimitRel_canonical _ 3 table,
    nodup_dedupFirst _, ?_⟩
  intro r
  rw [topCanonical, mem_dedupFirst, List.mem_append]

/-- Any permutation of a valid `UNION` result is a valid result: the query
constrains the set of returned rows, not their order. -/
theorem topRel_perm (table rows rows' : List OptionRow)
    (h : topRel table rows) (hp : rows.Perm rows') : topRel table rows' := by
  rcases h with ⟨q1, q2, h1, h2, hnd, hmem⟩
  exact ⟨q1, q2, h1, h2, hp.nodup_iff.mp hnd,
    fun r => (hp.mem_iff.symm).trans (hmem r)⟩

/-! ## Environment variables and connection configuration -/

/-- A process environment, as queried by `os.getenv`. -/
def Env : Type := String → Option String

/-- Model of `os.getenv(name, default)`: the variable's value when set, otherwise
the default. -/
def getenv (env : Env) (name dflt : String) : String := (env name).getD dflt

/-- The connection parameters passed to `asyncpg.create_pool`. -/
structure DbConfig where
  host : String
  port : String
  database : String
  user : String
  password : String
deriving DecidableEq, Repr

/-- Module-level configuration (main.py lines 6-10): each of the five
`DB_*` variables read with `os.getenv` and a hardcoded default. -/
def loadConfig (env : Env) : DbConfig where
  host := getenv env "DB_HOST" "dpg-cv85t1t6l47c73f4toqg-a.oregon-postgres.render.com"
  port := getenv env "DB_PORT" "5432"
  database := getenv env "DB_NAME" "spy_data"
  user := getenv env "DB_USER" "spy_data_user"
  password := getenv env "DB_PASS" "UgqWwwN107nzxvryK43WZUS6t44hxFJF"

/-! ## World state, faults and events -/

/-- Failure injection for the three awaited database operations of a data
route.  `none` means the database is reachable and every operation
succeeds; the other constructors make the corresponding operation raise
(unreachable host, invalid credentials, missing table, query timeout…). -/
inductive DbFault where
  | none
  | poolCreation
  | acquire
  | queryExec
deriving DecidableEq, Repr

/-- An open `asyncpg` connection pool, as created by `connect_db`:
it stores the connection parameters and the `ssl="require"` flag. -/
structure Pool where
  pid : Nat
  config : DbConfig
  sslRequire : Bool
deriving DecidableEq, Repr

/-- The world a request handler runs in: the process environment, the
fault being injected, the database contents, and the open pools (with a
counter supplying fresh pool ids). -/
structure World where
  env : Env
  fault : DbFault
  db : DBState
  nextPoolId : Nat
  openPools : List Pool

/-- The error a failed route surfaces (the web framework turns any of
these unhandled exceptions into a generic 500 response; no structured
body, no partial rows). -/
inductive DbError where
  | poolCreationFailed
  | acquireFailed
  | queryFailed
deriving DecidableEq, Repr

/-- Observable pool/connection events of one request. -/
inductive Event where
  | createPool (pid : Nat)
  | acquireConn (pid : Nat)
  | runQuery (pid : Nat)
  | releaseConn (pid : Nat)
  | closePool (pid : Nat)
deriving DecidableEq, Repr

def Event.isCreate : Event → Bool
  | .createPool _ => true
  | _ => false

def Event.isAcquire : Event → Bool
  | .acquireConn _ => true
  | _ => false

def Event.isQuery : Event → Bool
  | .runQuery _ => true
  | _ => false

def Event.isRelease : Event → Bool
  | .releaseConn _ => true
  | _ => false

def Event.isClose : Event → Bool
  | .closePool _ => true
  | _ => false

/-! ## JSON values and `dict(row)` -/

/-- JSON values, enough for this service's responses. -/
inductive Json where
  | str (s : String)
  | int (n : Int)
  | arr (elems : List Json)
  | obj (fields : List (String × Json))

/-- Conversion `dict(row)` for an OHLC row. -/
def OhlcRow.toJson (r : OhlcRow) : Json :=
  .obj [("recorded_at", .int r.recorded_at), ("payload", .int r.payload)]

/-- Conversion `dict(row)` for an option-level row. -/
def OptionRow.toJson (r : OptionRow) : Json :=
  .obj [("recorded_at", .int r.recorded_at), ("call_volume", .int r.call_volume),
    ("put_volume", .int r.put_volume), ("payload", .int r.payload)]

/-! ## The handlers -/

/-- Model of `connect_db` (main.py lines 15-23): `asyncpg.create_pool(user=DB_USER,
password=DB_PASS, database=DB_NAME, host=DB_HOST, port=DB_PORT,
ssl="require")`.  On success a fresh pool carrying the configuration is
created and becomes an open pool of the world. -/
def connect_db (w : World) : Except DbError (Pool × World) :=
  if w.fault = .poolCreation then .error .poolCreationFailed
  else
    let p : Pool := ⟨w.nextPoolId, loadConfig w.env, true⟩
    .ok (p, { w with nextPoolId := w.nextPoolId + 1, openPools := p :: w.openPools })

/-- Shared shape of the three data-route handlers:

```
pool = await connect_db()
async with pool.acquire() as conn:
    rows = await conn.fetch(sql)
return \x7b"data": [dict(row) for row in rows]\x7d
```

`fetchQ` is the canonical evaluation of the route's SQL statement on the
database state and `enc` is `dict(row)`.  The `async with` block releases
the acquired connection on every exit, including when `conn.fetch`
raises; no path closes the pool.  The result is the response (or the
unhandled error), the world after the request, and the event trace. -/
def runDataRoute (fetchQ : DBState → List ρ) (enc : ρ → Json) (w : World) :
    Except DbError Json × World × List Event :=
  match connect_db w with
  | .error e => (.error e, w, [])
  | .ok (p, w1) =>
    if w1.fault = .acquire then
      (.error .acquireFailed, w1, [.createPool p.pid])
    else if w1.fault = .queryExec then
      (.error .queryFailed, w1,
        [.createPool p.pid, .acquireConn p.pid, .releaseConn p.pid])
    else
      (.ok (.obj [("data", .arr ((fetchQ w1.db).map enc))]), w1,
        [.createPool p.pid, .acquireConn p.pid, .runQuery p.pid, .releaseConn p.pid])

/-- Canonical rows of `SELECT * FROM spy_ohlc ORDER BY recorded_at DESC
LIMIT 5;`. -/
def latestOhlcRows (s : DBState) : List OhlcRow :=
  (sortDescBy (fun r => r.recorded_at) s.spy_ohlc).take 5

/-- Canonical rows of `SELECT * FROM spy_option_data ORDER BY recorded_at
DESC LIMIT 5;`. -/
def recentOptionRows (s : DBState) : List OptionRow :=
  (sortDescBy (fun r => r.recorded_at) s.spy_option_data).take 5

/-- Canonical rows of the `/spy/options/top` UNION query. -/
def topOptionRows (s : DBState) : List OptionRow :=
  topCanonical s.spy_option_data

/-- Route `GET /` — `root` (main.py lines 25-27): returns the fixed liveness
message; performs no database operation and leaves the world unchanged. -/
def root (w : World) : Except DbError Json × World × List Event :=
  (.ok (.obj [("message", .str "SPY Options & OHLC API is running!")]), w, [])

/-- Route `GET /spy/ohlc/latest` — `get_latest_ohlc` (main.py lines 30-35). -/
def get_latest_ohlc : World → Except DbError Json × World × List Event :=
  runDataRoute latestOhlcRows OhlcRow.toJson

/-- Route `GET /spy/options/top` — `get_top_option_levels` (main.py lines 38-47). -/
def get_top_option_levels : World → Except DbError Json × World × List Event :=
  runDataRoute topOptionRows OptionRow.toJson

/-- Route `GET /spy/options/recent` — `get_recent_option_levels`
(main.py lines 50-55). -/
def get_recent_option_levels : World → Except DbError Json × World × List Event :=
  runDataRoute recentOptionRows OptionRow.toJson

/-! ## Example worlds used to instantiate the theorems -/

/-- An environment with only `DB_HOST` set. -/
def envEx : Env := fun n => if n = "DB_HOST" then some "db.example.org" else Option.none

/-- The empty environment: every variable unset. -/
def emptyEnv : Env := fun _ => Option.none

/-- A world with the empty environment, no open pools, and the given fault
and database state. -/
def worldEx (f : DbFault) (db : DBState) : World := ⟨emptyEnv, f, db, 0, []⟩

/-- Generic behaviour of a data route under an injected fault: the result
is an unhandled error and each database operation is attempted at most
once. -/
theorem runDataRoute_fault (fetchQ : DBState → List ρ) (enc : ρ → Json) (w : World)
    (h : w.fault ≠ DbFault.none) :
    (∃ e, (runDataRoute fetchQ enc w).1 = .error e) ∧
    (runDataRoute fetchQ enc w).2.2.countP Event.isCreate ≤ 1 ∧
    (runDataRoute fetchQ enc w).2.2.countP Event.isAcquire ≤ 1 ∧
    (runDataRoute fetchQ enc w).2.2.countP Event.isQuery ≤ 1 := by
  rcases w with ⟨env, fault, db, n, pools⟩
  cases fault with
  | none => exact absurd rfl h
  | poolCreation =>
    simp [runDataRoute, connect_db, List.countP, List.countP.go]
  | acquire =>
    simp [runDataRoute, connect_db, List.countP, List.countP.go,
      Event.isCreate, Event.isAcquire, Event.isQuery]
  | queryExec =>
    simp [runDataRoute, connect_db, List.countP, List.countP.go,
      Event.isCreate, Event.isAcquire, Event.isQuery]

/-- Generic behaviour of a data route when every operation succeeds. -/
theorem runDataRoute_ok (fetchQ : DBState → List ρ) (enc : ρ → Json) (w : World)
    (h : w.fault = DbFault.none) :
    runDataRoute fetchQ enc w =
      (.ok (.obj [("data", .arr ((fetchQ w.db).map enc))]),
        { w with nextPoolId := w.nextPoolId + 1,
                 openPools := ⟨w.nextPoolId, loadConfig w.env, true⟩ :: w.openPools },
        [.createPool w.nextPoolId, .acquireConn w.nextPoolId,
          .runQuery w.nextPoolId, .releaseConn w.nextPoolId]) := by
  rcases w with ⟨env, fault, db, n, pools⟩
  cases h
  simp [runDataRoute, connect_db]

/-- Claim C3: for every world — whatever the database state or the injected
fault, an unreachable database included — `GET /` returns the one fixed
liveness message, and its result does not depend on the world at all. -/
theorem C3_root_fixed_message :
    (∀ w : World,
      root w =
        (.ok (.obj [("message", .str "SPY Options & OHLC API is running!")]), w, [])) ∧
    ∀ w w' : World, (root w).1 = (root w').1 :=
  ⟨fun _ => rfl, fun _ _ => rfl⟩

/-- Claim C7: every successful `GET /` response is an object holding a string
under `"message"`, and every successful data-route response is an object
holding, under `"data"`, the array of the fetched rows converted to
objects in the order the query returned them. -/
theorem C7_response_shapes :
    (∀ w : World, ∃ s : String, (root w).1 = .ok (.obj [("message", .str s)])) ∧
    ∀ w : World, w.fault = DbFault.none →
      (get_latest_ohlc w).1 =
        .ok (.obj [("data", .arr ((latestOhlcRows w.db).map OhlcRow.toJson))]) ∧
      (get_top_option_levels w).1 =
        .ok (.obj [("data", .arr ((topOptionRows w.db).map OptionRow.toJson))]) ∧
      (get_recent_option_levels w).1 =
        .ok (.obj [("data", .arr ((recentOptionRows w.db).map OptionRow.toJson))]) := by
  constructor
  · exact fun w => ⟨_, rfl⟩
  · intro w h
    refine ⟨?_, ?_, ?_⟩ <;>
      simp [get_latest_ohlc, get_top_option_levels, get_recent_option_levels,
        runDataRoute_ok _ _ w h]

/-- Instantiation of `C7_response_shapes` on a concrete world. -/
theorem C7_response_shapes_witness :
    (get_latest_ohlc (worldEx .none ⟨[], []⟩)).1 =
      .ok (.obj [("data", .arr ((latestOhlcRows ⟨[], []⟩).map OhlcRow.toJson))]) ∧
    (get_top_option_levels (worldEx .none ⟨[], []⟩)).1 =
      .ok (.obj [("data", .arr ((topOptionRows ⟨[], []⟩).map OptionRow.toJson))]) ∧
    (get_recent_option_levels (worldEx .none ⟨[], []⟩)).1 =
      .ok (.obj [("data", .arr ((recentOptionRows ⟨[], []⟩).map OptionRow.toJson))]) :=
  C7_response_shapes.2 (worldEx .none ⟨[], []⟩) rfl

/-- Claim C9: each of the five `DB_*` environment variables is optional — when
unset the hardcoded default is used, when set its value is used — and
`connect_db` builds its pool from exactly this configuration, with
`ssl="require"`. -/
theorem C9_env_defaults (env : Env) :
    ((env "DB_HOST" = Option.none →
        (loadConfig env).host = "dpg-cv85t1t6l47c73f4toqg-a.oregon-postgres.render.com") ∧
      ∀ v, env "DB_HOST" = some v → (loadConfig env).host = v) ∧
    ((env "DB_PORT" = Option.none → (loadConfig env).port = "5432") ∧
      ∀ v, env "DB_PORT" = some v → (loadConfig env).port = v) ∧
    ((env "DB_NAME" = Option.none → (loadConfig env).database = "spy_data") ∧
      ∀ v, env "DB_NAME" = some v → (loadConfig env).database = v) ∧
    ((env "DB_USER" = Option.none → (loadConfig env).user = "spy_data_user") ∧
      ∀ v, env "DB_USER" = some v → (loadConfig env).user = v) ∧
    ((env "DB_PASS" = Option.none →
        (loadConfig env).password = "UgqWwwN107nzxvryK43WZUS6t44hxFJF") ∧
      ∀ v, env "DB_PASS" = some v → (loadConfig env).password = v) ∧
    ∀ w : World, w.fault ≠ DbFault.poolCreation →
      ∃ p w', connect_db w = .ok (p, w') ∧
        p.config = loadConfig w.env ∧ p.sslRequire = true := by
  refine ⟨⟨?_, ?_⟩, ⟨?_, ?_⟩, ⟨?_, ?_⟩, ⟨?_, ?_⟩, ⟨?_, ?_⟩, ?_⟩
  · intro h; simp [loadConfig, getenv, h]
  · intro v h; simp [loadConfig, getenv, h]
  · intro h; simp [loadConfig, getenv, h]
  · intro v h; simp [loadConfig, getenv, h]
  · intro h; simp [loadConfig, getenv, h]
  · intro v h; simp [loadConfig, getenv, h]
  · intro h; simp [loadConfig, getenv, h]
  · intro v h; simp [loadConfig, getenv, h]
  · intro h; simp [loadConfig, getenv, h]
  · intro v h; simp [loadConfig, getenv, h]
  · intro w hw
    refine ⟨⟨w.nextPoolId, loadConfig w.env, true⟩,
      { w with nextPoolId := w.nextPoolId + 1,
               openPools := ⟨w.nextPoolId, loadConfig w.env, true⟩ :: w.openPools },
      ?_, rfl, rfl⟩
    unfold connect_db
    rw [if_neg hw]

/-- Instantiation of `C9_env_defaults`: with only `DB_HOST` set, the host
comes from the environment and the port falls back to the default, and
`connect_db` succeeds on a faultless world. -/
theorem C9_env_defaults_witness :
    (loadConfig envEx).host = "db.example.org" ∧
    (loadConfig envEx).port = "5432" ∧
    ∃ p w', connect_db (worldEx .none ⟨[], []⟩) = .ok (p, w') ∧
      p.config = loadConfig (worldEx .none ⟨[], []⟩).env ∧ p.sslRequire = true :=
  ⟨(C9_env_defaults envEx).1.2 "db.example.org" (by simp [envEx]),
   (C9_env_defaults envEx).2.1.1 (by simp [envEx]),
   (C9_env_defaults emptyEnv).2.2.2.2.2 (worldEx .none ⟨[], []⟩) (by decide)⟩

/-- Claim C4: under any injected database fault — unreachable host, failing pool
creation, failing connection acquisition or failing query — each of the
three data routes fails with an unhandled error (so no partial rows and no
fallback data are returned), no database operation is retried, and `GET /`
still returns the fixed liveness message. -/
theorem C4_db_failure (w : World) (h : w.fault ≠ DbFault.none) :
    (∃ e, (get_latest_ohlc w).1 = .error e) ∧
    (∃ e, (get_top_option_levels w).1 = .error e) ∧
    (∃ e, (get_recent_option_levels w).1 = .error e) ∧
    ((get_latest_ohlc w).2.2.countP Event.isCreate ≤ 1 ∧
      (get_latest_ohlc w).2.2.countP Event.isAcquire ≤ 1 ∧
      (get_latest_ohlc w).2.2.countP Event.isQuery ≤ 1) ∧
    ((get_top_option_levels w).2.2.countP Event.isCreate ≤ 1 ∧
      (get_top_option_levels w).2.2.countP Event.isAcquire ≤ 1 ∧
      (get_top_option_levels w).2.2.countP Event.isQuery ≤ 1) ∧
    ((get_recent_option_levels w).2.2.countP Event.isCreate ≤ 1 ∧
      (get_recent_option_levels w).2.2.countP Event.isAcquire ≤ 1 ∧
      (get_recent_option_levels w).2.2.countP Event.isQuery ≤ 1) ∧
    (root w).1 = .ok (.obj [("message", .str "SPY Options & OHLC API is running!")]) := by
  obtain ⟨e₁, h₁⟩ := (runDataRoute_fault latestOhlcRows OhlcRow.toJson w h).1
  obtain ⟨e₂, h₂⟩ := (runDataRoute_fault topOptionRows OptionRow.toJson w h).1
  obtain ⟨e₃, h₃⟩ := (runDataRoute_fault recentOptionRows OptionRow.toJson w h).1
  exact ⟨⟨e₁, h₁⟩, ⟨e₂, h₂⟩, ⟨e₃, h₃⟩,
    (runDataRoute_fault latestOhlcRows OhlcRow.toJson w h).2,
    (runDataRoute_fault topOptionRows OptionRow.toJson w h).2,
    (runDataRoute_fault recentOptionRows OptionRow.toJson w h).2, rfl⟩

/-- Instantiation of `C4_db_failure` on a world whose pool creation fails
(database unreachable). -/
theorem C4_db_failure_witness :
    (∃ e, (get_latest_ohlc (worldEx .poolCreation ⟨[], []⟩)).1 = .error e) ∧
    (root (worldEx .poolCreation ⟨[], []⟩)).1 =
      .ok (.obj [("message", .str "SPY Options & OHLC API is running!")]) :=
  ⟨(C4_db_failure (worldEx .poolCreation ⟨[], []⟩) (by decide)).1,
   (C4_db_failure (worldEx .poolCreation ⟨[], []⟩) (by decide)).2.2.2.2.2.2⟩

/-- Claim C1: for every database state, `GET /spy/ohlc/latest` returns at most
5 rows ordered non-increasing by `recorded_at`, and `GET
/spy/options/recent` returns at most 5 rows ordered non-increasing by
`recorded_at` — for every valid result of their `ORDER BY recorded_at
DESC LIMIT 5` statements, and the canonical handler rows are such
results. -/
theorem C1_latest_recent_limit5_sorted :
    (∀ table rows : List OhlcRow,
        ordLimitRel (fun r => r.recorded_at) 5 table rows →
          rows.length ≤ 5 ∧ rows.Pairwise (descBy fun r => r.recorded_at)) ∧
    (∀ table rows : List OptionRow,
        ordLimitRel (fun r => r.recorded_at) 5 table rows →
          rows.length ≤ 5 ∧ rows.Pairwise (descBy fun r => r.recorded_at)) ∧
    ∀ s : DBState,
      ordLimitRel (fun r => r.recorded_at) 5 s.spy_ohlc (latestOhlcRows s) ∧
      ordLimitRel (fun r => r.recorded_at) 5 s.spy_option_data (recentOptionRows s) :=
  ⟨fun table rows h => ordLimitRel_length_pairwise _ 5 table rows h,
   fun table rows h => ordLimitRel_length_pairwise _ 5 table rows h,
   fun _ => ⟨ordLimitRel_canonical _ 5 _, ordLimitRel_canonical _ 5 _⟩⟩

/-- Instantiation of `C1_latest_recent_limit5_sorted` on concrete query
results. -/
theorem C1_latest_recent_limit5_sorted_witness :
    (([⟨5, 0⟩, ⟨3, 0⟩] : List OhlcRow).length ≤ 5 ∧
      ([⟨5, 0⟩, ⟨3, 0⟩] : List OhlcRow).Pairwise (descBy fun r => r.recorded_at)) ∧
    (([⟨7, 1, 2, 0⟩] : List OptionRow).length ≤ 5 ∧
      ([⟨7, 1, 2, 0⟩] : List OptionRow).Pairwise (descBy fun r => r.recorded_at)) :=
  ⟨C1_latest_recent_limit5_sorted.1 [⟨3, 0⟩, ⟨5, 0⟩] [⟨5, 0⟩, ⟨3, 0⟩]
      ⟨[⟨5, 0⟩, ⟨3, 0⟩], by decide, by decide, rfl⟩,
   C1_latest_recent_limit5_sorted.2.1 [⟨7, 1, 2, 0⟩] [⟨7, 1, 2, 0⟩]
      ⟨[⟨7, 1, 2, 0⟩], by decide, by decide, rfl⟩⟩

/-- The C5 scenario: an OHLC table of ten rows with `recorded_at` 1..10. -/
def ohlcScenario : List OhlcRow :=
  [⟨1, 101⟩, ⟨2, 102⟩, ⟨3, 103⟩, ⟨4, 104⟩, ⟨5, 105⟩,
   ⟨6, 106⟩, ⟨7, 107⟩, ⟨8, 108⟩, ⟨9, 109⟩, ⟨10, 110⟩]

/-- The scenario table ordered descending by `recorded_at`. -/
def ohlcScenarioSorted : List OhlcRow :=
  [⟨10, 110⟩, ⟨9, 109⟩, ⟨8, 108⟩, ⟨7, 107⟩, ⟨6, 106⟩,
   ⟨5, 105⟩, ⟨4, 104⟩, ⟨3, 103⟩, ⟨2, 102⟩, ⟨1, 101⟩]

/-- The rows `/spy/ohlc/latest` must return in the C5 scenario:
`recorded_at` 10, 9, 8, 7, 6. -/
def ohlcScenarioExpected : List OhlcRow :=
  [⟨10, 110⟩, ⟨9, 109⟩, ⟨8, 108⟩, ⟨7, 107⟩, ⟨6, 106⟩]

/-- Claim C5: on the ten-row scenario table, every valid result of the
`/spy/ohlc/latest` query is exactly the rows with `recorded_at` 10, 9, 8,
7, 6 in that order, and the handler responds with exactly those rows. -/
theorem C5_scenario_latest :
    (∀ rows : List OhlcRow,
        ordLimitRel (fun r => r.recorded_at) 5 ohlcScenario rows →
          rows = ohlcScenarioExpected) ∧
    latestOhlcRows ⟨ohlcScenario, []⟩ = ohlcScenarioExpected ∧
    (get_latest_ohlc (worldEx .none ⟨ohlcScenario, []⟩)).1 =
      .ok (.obj [("data", .arr (ohlcScenarioExpected.map OhlcRow.toJson))]) := by
  refine ⟨?_, by decide, ?_⟩
  · rintro rows ⟨s, hperm, hpair, rfl⟩
    have hs : ohlcScenarioSorted = s := by
      refine pairwise_desc_perm_eq (fun r => r.recorded_at) ohlcScenarioSorted s
        ?_ (by decide) hpair (by decide)
      exact ((by decide : ohlcScenarioSorted.Perm ohlcScenario)).trans hperm
    rw [← hs]
    decide
  · rfl

/-- Instantiation of `C5_scenario_latest` on the canonical query result. -/
theorem C5_scenario_latest_witness :
    latestOhlcRows ⟨ohlcScenario, []⟩ = ohlcScenarioExpected :=
  C5_scenario_latest.1 (latestOhlcRows ⟨ohlcScenario, []⟩)
    ⟨ohlcScenarioSorted, by decide, by decide, by decide⟩

/-- Claim C2: every valid result of the `/spy/options/top` UNION query has at
most 6 rows, contains no duplicate row, and each of its rows belongs to a
valid top-3-by-`call_volume` result or to a valid top-3-by-`put_volume`
result. -/
theorem C2_top_bounded_membership (table rows : List OptionRow)
    (h : topRel table rows) :
    rows.length ≤ 6 ∧ rows.Nodup ∧
    ∀ r ∈ rows,
      (∃ q, ordLimitRel (fun x => x.call_volume) 3 table q ∧ r ∈ q) ∨
      (∃ q, ordLimitRel (fun x => x.put_volume) 3 table q ∧ r ∈ q) := by
  rcases h with ⟨q1, q2, h1, h2, hnd, hmem⟩
  have hl1 : q1.length ≤ 3 := (ordLimitRel_length_pairwise _ 3 table q1 h1).1
  have hl2 : q2.length ≤ 3 := (ordLimitRel_length_pairwise _ 3 table q2 h2).1
  have hsub : rows ⊆ q1 ++ q2 := by
    intro r hr
    rcases (hmem r).mp hr with hq | hq
    · exact List.mem_append_left _ hq
    · exact List.mem_append_right _ hq
  have hlen := nodup_subset_length_le rows (q1 ++ q2) hnd hsub
  refine ⟨?_, hnd, ?_⟩
  · calc rows.length ≤ (q1 ++ q2).length := hlen
      _ = q1.length + q2.length := List.length_append _ _
      _ ≤ 6 := by omega
  · intro r hr
    rcases (hmem r).mp hr with hq | hq
    · exact Or.inl ⟨q1, h1, hq⟩
    · exact Or.inr ⟨q2, h2, hq⟩

/-- A row dominating by `call_volume`. -/
def optA : OptionRow := ⟨0, 10, 1, 0⟩

/-- A row dominating by `put_volume`. -/
def optB : OptionRow := ⟨0, 1, 10, 1⟩

/-- Instantiation of `C2_top_bounded_membership` on a two-row table. -/
theorem C2_top_bounded_membership_witness :
    ([optA, optB] : List OptionRow).length ≤ 6 ∧
    ([optA, optB] : List OptionRow).Nodup ∧
    ∀ r ∈ ([optA, optB] : List OptionRow),
      (∃ q, ordLimitRel (fun x => x.call_volume) 3 [optA, optB] q ∧ r ∈ q) ∨
      (∃ q, ordLimitRel (fun x => x.put_volume) 3 [optA, optB] q ∧ r ∈ q) :=
  C2_top_bounded_membership [optA, optB] [optA, optB]
    ⟨[optA, optB], [optB, optA],
      ⟨[optA, optB], by decide, by decide, rfl⟩,
      ⟨[optB, optA], by decide, by decide, rfl⟩,
      by decide,
      by intro r; simp [List.mem_cons]; tauto⟩

/-! ### C6: the order of the UNION result

The `/spy/options/top` statement has no outer `ORDER BY`, so SQL leaves
the order of the deduplicated union unspecified: `topRel` is closed under
permutation of the result.  On a three-row table every enumeration of the
three rows is a valid result, and not every enumeration decomposes into a
`call_volume`-descending block followed by a `put_volume`-descending
block. -/

/-- Counterexample row: top by `put_volume`. -/
def optX : OptionRow := ⟨0, 1, 9, 0⟩

/-- Counterexample row: middle `call_volume`, lowest `put_volume`. -/
def optY : OptionRow := ⟨0, 2, 1, 1⟩

/-- Counterexample row: top by `call_volume`. -/
def optZ : OptionRow := ⟨0, 3, 2, 2⟩

/-- A three-row table that equals both of its top-3 subquery results. -/
def topCx : List OptionRow := [optX, optY, optZ]

/-- The enumeration `[optX, optY, optZ]` is a valid result of the UNION query on
`topCx`. -/
theorem topCx_rel : topRel topCx [optX, optY, optZ] :=
  ⟨[optZ, optY, optX], [optX, optZ, optY],
    ⟨[optZ, optY, optX], by decide, by decide, rfl⟩,
    ⟨[optX, optZ, optY], by decide, by decide, rfl⟩,
    by decide,
    by intro r; simp [topCx, List.mem_cons]; tauto⟩

/-- Claim C6 counterexample: it is not true that every valid result of the
UNION query splits into a block ordered descending by `call_volume`
followed by a block ordered descending by `put_volume`: on `topCx` the
valid result `[optX, optY, optZ]` admits no such split. -/
theorem C6_counterexample :
    ¬ ∀ table rows : List OptionRow, topRel table rows →
        ∃ u v, rows = u ++ v ∧ u.Pairwise (descBy fun r => r.call_volume) ∧
          v.Pairwise (descBy fun r => r.put_volume) := by
  intro hclaim
  rcases hclaim topCx [optX, optY, optZ] topCx_rel with ⟨u, v, huv, hu, hv⟩
  rcases u with _ | ⟨a, u⟩
  · rw [List.nil_append] at huv
    rw [← huv] at hv
    exact absurd hv (by decide)
  rcases u with _ | ⟨b, u⟩
  · simp only [List.cons_append, List.nil_append, List.cons.injEq] at huv
    obtain ⟨rfl, rfl⟩ := huv
    exact absurd hv (by decide)
  rcases u with _ | ⟨c, u⟩
  · simp only [List.cons_append, List.nil_append, List.cons.injEq] at huv
    obtain ⟨rfl, rfl, rfl⟩ := huv
    exact absurd hu (by decide)
  rcases u with _ | ⟨d, u⟩
  · simp only [List.cons_append, List.nil_append, List.cons.injEq] at huv
    obtain ⟨rfl, rfl, rfl, rfl⟩ := huv
    exact absurd hu (by decide)
  · simp only [List.cons_append, List.cons.injEq] at huv
    exact absurd huv.2.2.2.symm (List.cons_ne_nil d (u ++ v))

/-- Claim C6, amended: the UNION query constrains the set of returned rows but
not their order — every permutation of a valid result is a valid result —
and the ordering the spec describes (top `call_volume` rows descending,
then the remaining top `put_volume` rows descending) is one valid result
among the permutations. -/
theorem C6_top_order_unspecified :
    (∀ table rows rows' : List OptionRow,
        topRel table rows → rows.Perm rows' → topRel table rows') ∧
    ∀ table : List OptionRow, topRel table (topCanonical table) :=
  ⟨topRel_perm, topRel_canonical⟩

/-- Instantiation of `C6_top_order_unspecified`: a reversed enumeration of
the counterexample result is still a valid result. -/
theorem C6_top_order_unspecified_witness :
    topRel topCx [optZ, optY, optX] :=
  C6_top_order_unspecified.1 topCx [optX, optY, optZ] [optZ, optY, optX]
    topCx_rel (by decide)

/-! ### C8 and C10: pool and connection discipline -/

/-- Pool-id freshness invariant: every open pool's id is below the
counter. -/
def poolsWF (w : World) : Prop := ∀ p ∈ w.openPools, p.pid < w.nextPoolId

/-- Generic pool/connection discipline of a data route: acquisitions and
releases pair up on every exit path, nothing is retried, no pool is ever
closed, the created pool (when creation succeeds) has the fresh id and
stays open on top of the previous pools, and every event concerns that
one pool. -/
theorem runDataRoute_pools (fetchQ : DBState → List ρ) (enc : ρ → Json) (w : World) :
    (runDataRoute fetchQ enc w).2.2.countP Event.isAcquire =
      (runDataRoute fetchQ enc w).2.2.countP Event.isRelease ∧
    (runDataRoute fetchQ enc w).2.2.countP Event.isAcquire ≤ 1 ∧
    (runDataRoute fetchQ enc w).2.2.countP Event.isClose = 0 ∧
    (runDataRoute fetchQ enc w).2.2.countP Event.isCreate ≤ 1 ∧
    ((w.fault = DbFault.none ∨ w.fault = DbFault.queryExec) →
      (runDataRoute fetchQ enc w).2.2.countP Event.isAcquire = 1) ∧
    (w.fault ≠ DbFault.poolCreation →
      (runDataRoute fetchQ enc w).2.2.countP Event.isCreate = 1 ∧
      Event.createPool w.nextPoolId ∈ (runDataRoute fetchQ enc w).2.2 ∧
      (runDataRoute fetchQ enc w).2.1.nextPoolId = w.nextPoolId + 1 ∧
      (runDataRoute fetchQ enc w).2.1.openPools =
        ⟨w.nextPoolId, loadConfig w.env, true⟩ :: w.openPools) ∧
    (w.fault = DbFault.poolCreation →
      (runDataRoute fetchQ enc w).2.2 = [] ∧ (runDataRoute fetchQ enc w).2.1 = w) ∧
    (runDataRoute fetchQ enc w).2.1.db = w.db ∧
    (runDataRoute fetchQ enc w).2.1.fault = w.fault ∧
    ∀ pid, (Event.createPool pid ∈ (runDataRoute fetchQ enc w).2.2 ∨
        Event.acquireConn pid ∈ (runDataRoute fetchQ enc w).2.2 ∨
        Event.runQuery pid ∈ (runDataRoute fetchQ enc w).2.2 ∨
        Event.releaseConn pid ∈ (runDataRoute fetchQ enc w).2.2) →
      pid = w.nextPoolId := by
  rcases w with ⟨env, fault, db, n, pools⟩
  cases fault <;>
    simp [runDataRoute, connect_db, List.countP, List.countP.go,
      Event.isAcquire, Event.isRelease, Event.isClose, Event.isCreate]

/-- Claim C8: every data-route invocation creates one fresh pool of its own
(never one of the already-open pools, and sequential invocations use
distinct pools), acquires at most — and on the non-creation-failure paths
exactly — one connection from it, and releases as many connections as it
acquired on every exit path, including the failing-query one. -/
theorem C8_fresh_pool_acquire_release (w : World) (hw : poolsWF w) :
    ((get_latest_ohlc w).2.2.countP Event.isAcquire =
        (get_latest_ohlc w).2.2.countP Event.isRelease ∧
      (get_latest_ohlc w).2.2.countP Event.isAcquire ≤ 1 ∧
      ((w.fault = DbFault.none ∨ w.fault = DbFault.queryExec) →
        (get_latest_ohlc w).2.2.countP Event.isAcquire = 1) ∧
      (w.fault ≠ DbFault.poolCreation →
        (get_latest_ohlc w).2.2.countP Event.isCreate = 1 ∧
        Event.createPool w.nextPoolId ∈ (get_latest_ohlc w).2.2 ∧
        ∀ p ∈ w.openPools, p.pid ≠ w.nextPoolId)) ∧
    ((get_top_option_levels w).2.2.countP Event.isAcquire =
        (get_top_option_levels w).2.2.countP Event.isRelease ∧
      (get_top_option_levels w).2.2.countP Event.isAcquire ≤ 1 ∧
      ((w.fault = DbFault.none ∨ w.fault = DbFault.queryExec) →
        (get_top_option_levels w).2.2.countP Event.isAcquire = 1) ∧
      (w.fault ≠ DbFault.poolCreation →
        (get_top_option_levels w).2.2.countP Event.isCreate = 1 ∧
        Event.createPool w.nextPoolId ∈ (get_top_option_levels w).2.2 ∧
        ∀ p ∈ w.openPools, p.pid ≠ w.nextPoolId)) ∧
    ((get_recent_option_levels w).2.2.countP Event.isAcquire =
        (get_recent_option_levels w).2.2.countP Event.isRelease ∧
      (get_recent_option_levels w).2.2.countP Event.isAcquire ≤ 1 ∧
      ((w.fault = DbFault.none ∨ w.fault = DbFault.queryExec) →
        (get_recent_option_levels w).2.2.countP Event.isAcquire = 1) ∧
      (w.fault ≠ DbFault.poolCreation →
        (get_recent_option_levels w).2.2.countP Event.isCreate = 1 ∧
        Event.createPool w.nextPoolId ∈ (get_recent_option_levels w).2.2 ∧
        ∀ p ∈ w.openPools, p.pid ≠ w.nextPoolId)) ∧
    ∀ pid pid', Event.createPool pid ∈ (get_latest_ohlc w).2.2 →
      Event.createPool pid' ∈ (get_latest_ohlc ((get_latest_ohlc w).2.1)).2.2 →
      pid ≠ pid' := by
  refine ⟨?_, ?_, ?_, ?_⟩
  · obtain ⟨h1, h2, _, _, h5, h6, _⟩ := runDataRoute_pools latestOhlcRows OhlcRow.toJson w
    exact ⟨h1, h2, h5, fun hne => ⟨(h6 hne).1, (h6 hne).2.1,
      fun p hp => Nat.ne_of_lt (hw p hp)⟩⟩
  · obtain ⟨h1, h2, _, _, h5, h6, _⟩ := runDataRoute_pools topOptionRows OptionRow.toJson w
    exact ⟨h1, h2, h5, fun hne => ⟨(h6 hne).1, (h6 hne).2.1,
      fun p hp => Nat.ne_of_lt (hw p hp)⟩⟩
  · obtain ⟨h1, h2, _, _, h5, h6, _⟩ := runDataRoute_pools recentOptionRows OptionRow.toJson w
    exact ⟨h1, h2, h5, fun hne => ⟨(h6 hne).1, (h6 hne).2.1,
      fun p hp => Nat.ne_of_lt (hw p hp)⟩⟩
  · intro pid pid' hmem hmem'
    have hpid : pid = w.nextPoolId :=
      (runDataRoute_pools latestOhlcRows OhlcRow.toJson w).2.2.2.2.2.2.2.2.2 pid
        (Or.inl hmem)
    have hpid' : pid' = ((get_latest_ohlc w).2.1).nextPoolId :=
      (runDataRoute_pools latestOhlcRows OhlcRow.toJson ((get_latest_ohlc w).2.1)).2.2.2.2.2.2.2.2.2
        pid' (Or.inl hmem')
    -- the first call created a pool, so its fault is not `poolCreation`
    -- and the counter advanced.
    have hne : w.fault ≠ DbFault.poolCreation := by
      intro hf
      have hempty :=
        ((runDataRoute_pools latestOhlcRows OhlcRow.toJson w).2.2.2.2.2.2.1 hf).1
      rw [show (get_latest_ohlc w).2.2 = (runDataRoute latestOhlcRows OhlcRow.toJson w).2.2
        from rfl, hempty] at hmem
      exact absurd hmem (List.not_mem_nil _)
    have hnext :=
      ((runDataRoute_pools latestOhlcRows OhlcRow.toJson w).2.2.2.2.2.1 hne).2.2.1
    rw [hpid, hpid', show (get_latest_ohlc w).2.1 =
      (runDataRoute latestOhlcRows OhlcRow.toJson w).2.1 from rfl, hnext]
    omega

/-- Instantiation of `C8_fresh_pool_acquire_release` on a concrete
faultless world. -/
theorem C8_fresh_pool_acquire_release_witness :
    (get_latest_ohlc (worldEx .none ⟨[], []⟩)).2.2.countP Event.isAcquire = 1 ∧
    (get_latest_ohlc (worldEx .none ⟨[], []⟩)).2.2.countP Event.isCreate = 1 :=
  ⟨(C8_fresh_pool_acquire_release (worldEx .none ⟨[], []⟩)
      (by intro p hp; simp [worldEx] at hp)).1.2.2.1 (Or.inl rfl),
   ((C8_fresh_pool_acquire_release (worldEx .none ⟨[], []⟩)
      (by intro p hp; simp [worldEx] at hp)).1.2.2.2 (by decide)).1⟩

/-- Claim C10: after a data-route invocation whose pool creation succeeded, the
created pool is still open on top of the untouched previous pools (one
more open pool per request); no route ever emits a pool-close event; and
at most one connection — the acquired one, belonging to that pool — is
released back.  The database state is untouched. -/
theorem C10_pool_left_open (w : World) (hne : w.fault ≠ DbFault.poolCreation) :
    ((get_latest_ohlc w).2.1.openPools =
        ⟨w.nextPoolId, loadConfig w.env, true⟩ :: w.openPools ∧
      ((get_latest_ohlc w).2.1.openPools).length = w.openPools.length + 1 ∧
      (get_latest_ohlc w).2.2.countP Event.isClose = 0 ∧
      (get_latest_ohlc w).2.2.countP Event.isRelease ≤ 1 ∧
      (∀ pid, Event.releaseConn pid ∈ (get_latest_ohlc w).2.2 → pid = w.nextPoolId) ∧
      (get_latest_ohlc w).2.1.db = w.db) ∧
    ((get_top_option_levels w).2.1.openPools =
        ⟨w.nextPoolId, loadConfig w.env, true⟩ :: w.openPools ∧
      ((get_top_option_levels w).2.1.openPools).length = w.openPools.length + 1 ∧
      (get_top_option_levels w).2.2.countP Event.isClose = 0 ∧
      (get_top_option_levels w).2.2.countP Event.isRelease ≤ 1 ∧
      (∀ pid, Event.releaseConn pid ∈ (get_top_option_levels w).2.2 →
        pid = w.nextPoolId) ∧
      (get_top_option_levels w).2.1.db = w.db) ∧
    ((get_recent_option_levels w).2.1.openPools =
        ⟨w.nextPoolId, loadConfig w.env, true⟩ :: w.openPools ∧
      ((get_recent_option_levels w).2.1.openPools).length = w.openPools.length + 1 ∧
      (get_recent_option_levels w).2.2.countP Event.isClose = 0 ∧
      (get_recent_option_levels w).2.2.countP Event.isRelease ≤ 1 ∧
      (∀ pid, Event.releaseConn pid ∈ (get_recent_option_levels w).2.2 →
        pid = w.nextPoolId) ∧
      (get_recent_option_levels w).2.1.db = w.db) := by
  refine ⟨?_, ?_, ?_⟩
  · simp only [get_latest_ohlc]
    obtain ⟨h1, h2, h3, _, _, h6, _, h8, _, h10⟩ :=
      runDataRoute_pools latestOhlcRows OhlcRow.toJson w
    exact ⟨(h6 hne).2.2.2, by rw [(h6 hne).2.2.2]; rfl, h3, by rw [← h1]; exact h2,
      fun pid hp => h10 pid (Or.inr (Or.inr (Or.inr hp))), h8⟩
  · simp only [get_top_option_levels]
    obtain ⟨h1, h2, h3, _, _, h6, _, h8, _, h10⟩ :=
      runDataRoute_pools topOptionRows OptionRow.toJson w
    exact ⟨(h6 hne).2.2.2, by rw [(h6 hne).2.2.2]; rfl, h3, by rw [← h1]; exact h2,
      fun pid hp => h10 pid (Or.inr (Or.inr (Or.inr hp))), h8⟩
  · simp only [get_recent_option_levels]
    obtain ⟨h1, h2, h3, _, _, h6, _, h8, _, h10⟩ :=
      runDataRoute_pools recentOptionRows OptionRow.toJson w
    exact ⟨(h6 hne).2.2.2, by rw [(h6 hne).2.2.2]; rfl, h3, by rw [← h1]; exact h2,
      fun pid hp => h10 pid (Or.inr (Or.inr (Or.inr hp))), h8⟩

/-- Instantiation of `C10_pool_left_open` on a concrete faultless world:
the request leaves its pool open. -/
theorem C10_pool_left_open_witness :
    (get_latest_ohlc (worldEx .none ⟨[], []⟩)).2.1.openPools =
      [⟨0, loadConfig (worldEx .none ⟨[], []⟩).env, true⟩] ∧
    (get_latest_ohlc (worldEx .none ⟨[], []⟩)).2.2.countP Event.isClose = 0 :=
  ⟨(C10_pool_left_open (worldEx .none ⟨[], []⟩) (by decide)).1.1,
   (C10_pool_left_open (worldEx .none ⟨[], []⟩) (by decide)).1.2.2.1⟩

end SpyApi
